import Mathlib

/-!
Shallow embedding of the `mutelnet` telnet option-negotiation engine
(`src/lib.rs`, crate root).  Rust data types are modelled as Lean
structures; `HashMap<u8, V>` becomes an association list
`List (Nat × V)` with unique keys maintained by `assocInsert`
(lookup = `assocFind`, the in-place mutation of `get_mut` =
`assocUpdate` of the first matching entry); `HashSet<u8>` becomes a
duplicate-free `List Nat` (insert = `setInsert`, remove = `filter`,
clear = `[]`); `Bytes` becomes `List Nat` (byte values); Rust `String`
becomes `List Char`.  Code that can panic (the out-of-bounds vector
index in `receive_ttype_0`) is modelled with `Option`, `none` meaning
a panic.  Everything else is a total function, mirroring the source
statement by statement.
-/

/-- Protocol verb WILL (251). -/
def WILL : Nat := 251

/-- Protocol verb WONT (252). -/
def WONT : Nat := 252

/-- Protocol verb DO (253). -/
def DO : Nat := 253

/-- Protocol verb DONT (254). -/
def DONT : Nat := 254

/-- Option code 3, suppress-go-ahead. -/
def SGA : Nat := 3

/-- Option code 31, negotiate-about-window-size. -/
def NAWS : Nat := 31

/-- Option code 24, terminal-type. -/
def TTYPE : Nat := 24

/-- Rust struct `TelnetOptionPerspective`. -/
structure TelnetOptionPerspective where
  enabled : Bool
  negotiating : Bool
deriving DecidableEq, Repr

/-- Rust `TelnetOptionPerspective::default()`. -/
def TelnetOptionPerspective.default : TelnetOptionPerspective :=
  { enabled := false, negotiating := false }

/-- Rust struct `TelnetOptionState` (field `local` renamed `local_`, a Lean keyword). -/
structure TelnetOptionState where
  remote : TelnetOptionPerspective
  local_ : TelnetOptionPerspective
deriving DecidableEq, Repr

/-- Rust `TelnetOptionState::default()`. -/
def TelnetOptionState.default : TelnetOptionState :=
  { remote := TelnetOptionPerspective.default, local_ := TelnetOptionPerspective.default }

/-- Rust struct `TelnetOption` (an option-registry entry). -/
structure TelnetOption where
  allow_local : Bool
  allow_remote : Bool
  start_local : Bool
  start_remote : Bool
deriving DecidableEq, Repr

/-- Rust struct `TelnetConfig` (the capability record); strings as char lists. -/
structure TelnetConfig where
  client_name : List Char
  client_version : List Char
  encoding : List Char
  color : Nat
  width : Nat
  height : Nat
  oob : Bool
  screen_reader : Bool
deriving DecidableEq, Repr

/-- Rust `impl Default for TelnetConfig`. -/
def TelnetConfig.default : TelnetConfig :=
  { client_name := "UNKNOWN".data
    client_version := "UNKNOWN".data
    encoding := "ascii".data
    color := 0
    width := 78
    height := 24
    oob := false
    screen_reader := false }

/-- Rust struct `TelnetHandshakes`: three sets of pending option codes
(field `local` renamed `local_`). -/
structure TelnetHandshakes where
  local_ : List Nat
  remote : List Nat
  ttype : List Nat
deriving DecidableEq, Repr

/-- Rust `TelnetHandshakes::default()`. -/
def TelnetHandshakes.default : TelnetHandshakes :=
  { local_ := [], remote := [], ttype := [] }

/-- Rust enum `TelnetEvent` from the `telnet_codec` dependency, restricted to
the variants this crate constructs. -/
inductive TelnetEvent where
  | Negotiate (command : Nat) (option : Nat)
  | SubNegotiate (option : Nat) (payload : List Nat)
  | Data (payload : List Char)
deriving DecidableEq, Repr

/-- Lookup in an association list; models `HashMap::get` / `get_mut`. -/
def assocFind {α : Type} (l : List (Nat × α)) (k : Nat) : Option α :=
  match l with
  | [] => none
  | (k', v) :: rest => if k' = k then some v else assocFind rest k

/-- Key-membership test; models `HashMap::contains_key`. -/
def containsKey {α : Type} (l : List (Nat × α)) (k : Nat) : Bool :=
  (assocFind l k).isSome

/-- Insert-or-replace; models `HashMap::insert`. -/
def assocInsert {α : Type} (l : List (Nat × α)) (k : Nat) (v : α) : List (Nat × α) :=
  match l with
  | [] => [(k, v)]
  | (k', v') :: rest => if k' = k then (k', v) :: rest else (k', v') :: assocInsert rest k v

/-- Overwrite the first entry with the given key, if any; models the in-place
mutation performed through `HashMap::get_mut`. -/
def assocUpdate {α : Type} (l : List (Nat × α)) (k : Nat) (v : α) : List (Nat × α) :=
  match l with
  | [] => []
  | (k', v') :: rest => if k' = k then (k', v) :: rest else (k', v') :: assocUpdate rest k v

/-- Duplicate-free insertion; models `HashSet::insert`. -/
def setInsert (l : List Nat) (x : Nat) : List Nat :=
  if l.contains x then l else l ++ [x]

/-- Remove an element; models `HashSet::remove`. -/
def setRemove (l : List Nat) (x : Nat) : List Nat :=
  l.filter (fun y => y != x)

/-- Rust struct `MuTelnet`: the per-connection negotiation engine state. -/
structure MuTelnet where
  op_state : List (Nat × TelnetOptionState)
  config : TelnetConfig
  handshakes_left : TelnetHandshakes
  ttype_count : Nat
  ttype_last : Option (List Char)
  telnet_options : List (Nat × TelnetOption)
  send_events : List TelnetEvent
deriving DecidableEq, Repr

/-- Rust `MuTelnet::new`. -/
def MuTelnet.new (telnet_options : List (Nat × TelnetOption)) : MuTelnet :=
  { op_state := []
    config := TelnetConfig.default
    handshakes_left := TelnetHandshakes.default
    ttype_count := 0
    ttype_last := none
    telnet_options := telnet_options
    send_events := [] }

/-- Option state produced for a registry entry by the `MuTelnet::start` loop:
the freshly inserted default state with the negotiating flags raised for the
sides the registry says to request at session start. -/
def startState (option : TelnetOption) : TelnetOptionState :=
  { remote := { enabled := false, negotiating := option.start_remote }
    local_ := { enabled := false, negotiating := option.start_local } }

/-- Pending handshakes recorded for a registry entry by the `MuTelnet::start`
loop. -/
def startHandshakes (op : Nat) (option : TelnetOption) (h : TelnetHandshakes) :
    TelnetHandshakes :=
  let h := if option.start_remote then { h with remote := setInsert h.remote op } else h
  if option.start_local then { h with local_ := setInsert h.local_ op } else h

/-- Loop body of `MuTelnet::start`: insert the option state for the registry
entry (the source inserts a default and then mutates it through `get_mut`)
and record the pending handshakes. -/
def startStep (acc : MuTelnet) (entry : Nat × TelnetOption) : MuTelnet :=
  { acc with op_state := assocInsert acc.op_state entry.1 (startState entry.2)
             handshakes_left := startHandshakes entry.1 entry.2 acc.handshakes_left }

/-- Append one `Negotiate(command, op)` event per listed option code; models
the two `for op in start_local / start_remote` loops of `MuTelnet::start`. -/
def pushAll (command : Nat) (ops : List Nat) (s : MuTelnet) : MuTelnet :=
  ops.foldl (fun acc op =>
    { acc with send_events := acc.send_events ++ [TelnetEvent.Negotiate command op] }) s

/-- Rust `MuTelnet::start`. -/
def MuTelnet.start (s : MuTelnet) : MuTelnet :=
  let start_local := s.telnet_options.foldl
    (fun acc e => if e.2.start_local then setInsert acc e.1 else acc) []
  let start_remote := s.telnet_options.foldl
    (fun acc e => if e.2.start_remote then setInsert acc e.1 else acc) []
  let s := s.telnet_options.foldl startStep s
  let s := pushAll WILL start_local s
  let s := pushAll DO start_remote s
  s

/-- Rust `str::replace(self, pat, rep)` on char lists: replace each
non-overlapping occurrence of `pat`, scanning left to right. -/
def replaceList (pat rep : List Char) : List Char → List Char
  | [] => []
  | x :: rest =>
    if pat.isPrefixOf (x :: rest) then
      rep ++ replaceList pat rep (rest.drop (pat.length - 1))
    else
      x :: replaceList pat rep rest
termination_by l => l.length
decreasing_by
  · simp only [List.length_cons, List.length_drop]
    omega
  · simp only [List.length_cons]
    omega

/-- Rust `MuTelnet::format_string`: strip every carriage return, then turn
every line feed into a carriage-return + line-feed pair. -/
def format_string (in_str : List Char) : List Char :=
  let cleaned := replaceList ['\r'] [] in_str
  replaceList ['\n'] ['\r', '\n'] cleaned

/-- Rust `MuTelnet::send_text`. -/
def MuTelnet.send_text (s : MuTelnet) (in_str : List Char) : MuTelnet :=
  let cleaned := format_string in_str
  { s with send_events := s.send_events ++ [TelnetEvent.Data cleaned] }

/-- Rust `MuTelnet::send_line`: like `send_text` but guarantees a trailing
carriage-return + line-feed pair, appended only when missing. -/
def MuTelnet.send_line (s : MuTelnet) (in_str : List Char) : MuTelnet :=
  let cleaned := format_string in_str
  let cleaned := if List.isSuffixOf ['\r', '\n'] cleaned then cleaned
                 else cleaned ++ ['\r', '\n']
  { s with send_events := s.send_events ++ [TelnetEvent.Data cleaned] }

/-- Rust `MuTelnet::send_prompt` (currently delegates to `send_line`). -/
def MuTelnet.send_prompt (s : MuTelnet) (in_str : List Char) : MuTelnet :=
  s.send_line in_str

/-- Rust `MuTelnet::request_ttype`: queue a terminal-type sub-negotiation
request whose payload is the single marker byte 1. -/
def MuTelnet.request_ttype (s : MuTelnet) : MuTelnet :=
  { s with send_events := s.send_events ++ [TelnetEvent.SubNegotiate TTYPE [1]] }

/-- Rust `MuTelnet::enable_remote` (the remote-enable hook): terminal-type
triggers the first discovery request; every other option is a no-op. -/
def MuTelnet.enable_remote (s : MuTelnet) (op : Nat) : MuTelnet × Bool :=
  if op = TTYPE then (s.request_ttype, false) else (s, false)

/-- Rust `MuTelnet::disable_remote` (the remote-disable hook): window-size
resets width/height to the defaults and reports a change; terminal-type
clears the pending terminal-type rounds; anything else is a no-op. -/
def MuTelnet.disable_remote (s : MuTelnet) (op : Nat) : MuTelnet × Bool :=
  if op = NAWS then
    ({ s with config := { s.config with width := 78, height := 24 } }, true)
  else if op = TTYPE then
    ({ s with handshakes_left := { s.handshakes_left with ttype := [] } }, false)
  else (s, false)

/-- Rust `MuTelnet::enable_local`: no currently supported option reacts. -/
def MuTelnet.enable_local (s : MuTelnet) (op : Nat) : MuTelnet × Bool :=
  if op = SGA then (s, false) else (s, false)

/-- Rust `MuTelnet::disable_local`: no currently supported option reacts. -/
def MuTelnet.disable_local (s : MuTelnet) (op : Nat) : MuTelnet × Bool :=
  if op = SGA then (s, false) else (s, false)

/-- The mutable locals of `MuTelnet::receive_negotiate`, gathered after the
command `match`: the written-back option state (when the option is tracked)
plus the flag variables declared at the top of the function. -/
structure NegFlags where
  state : Option TelnetOptionState
  handshake : Nat
  enable_local : Bool
  disable_local : Bool
  enable_remote : Bool
  disable_remote : Bool
  handshake_remote : Nat
  handshake_local : Nat
  respond : Nat
deriving DecidableEq, Repr

/-- All-clear flag record (the initial values of the locals). -/
def NegFlags.none_ (state : Option TelnetOptionState) : NegFlags :=
  { state := state, handshake := 0, enable_local := false, disable_local := false
    enable_remote := false, disable_remote := false
    handshake_remote := 0, handshake_local := 0, respond := 0 }

/-- First phase of `MuTelnet::receive_negotiate`: the `match command` block
(and the unknown-option `else`), which only sets the flag locals and mutates
the tracked option state. -/
def computeFlags (state? : Option TelnetOptionState) (command op : Nat) : NegFlags :=
  match state? with
  | some state =>
    if command = WILL then
      if state.remote.enabled = false then
        let respond := if state.remote.negotiating then 0 else DO
        let state := { state with remote := { enabled := true, negotiating := false } }
        { NegFlags.none_ (some state) with
            handshake := op, handshake_remote := op, enable_remote := true, respond := respond }
      else NegFlags.none_ (some state)
    else if command = WONT then
      let (handshake, handshake_remote) :=
        if state.remote.negotiating then (op, op) else (0, 0)
      let state := { state with remote := { state.remote with negotiating := false } }
      let (disable_remote, state) :=
        if state.remote.enabled then
          (true, { state with remote := { state.remote with enabled := false } })
        else (false, state)
      { NegFlags.none_ (some state) with
          handshake := handshake, handshake_remote := handshake_remote
          disable_remote := disable_remote }
    else if command = DO then
      if state.local_.enabled = false then
        let respond := if state.local_.negotiating then 0 else WILL
        let state := { state with local_ := { enabled := true, negotiating := false } }
        { NegFlags.none_ (some state) with
            handshake := op, handshake_local := op, enable_local := true, respond := respond }
      else NegFlags.none_ (some state)
    else if command = DONT then
      let (handshake, handshake_local) :=
        if state.local_.negotiating then (op, op) else (0, 0)
      let state := { state with local_ := { state.local_ with negotiating := false } }
      let (disable_local, state) :=
        if state.local_.enabled then
          (true, { state with local_ := { state.local_ with enabled := false } })
        else (false, state)
      { NegFlags.none_ (some state) with
          handshake := handshake, handshake_local := handshake_local
          disable_local := disable_local }
    else
      NegFlags.none_ (some state)
  | none =>
    let respond := if command = WILL then DONT else if command = DO then WONT else 0
    { NegFlags.none_ none with respond := respond }

/-- Stage of `receive_negotiate` phase two: write the mutated option state
back into the map (the effect of the `get_mut` borrow in the source). -/
def negWriteBack (op : Nat) (f : NegFlags) (s : MuTelnet) : MuTelnet :=
  match f.state with
  | some st => { s with op_state := assocUpdate s.op_state op st }
  | none => s

/-- Stage of `receive_negotiate` phase two: `if respond > 0` push the reply. -/
def negRespond (op : Nat) (f : NegFlags) (s : MuTelnet) : MuTelnet :=
  if f.respond > 0 then
    { s with send_events := s.send_events ++ [TelnetEvent.Negotiate f.respond op] }
  else s

/-- Stage of `receive_negotiate` phase two: `if handshake_local > 0` drop the
completed local handshake. -/
def negHandshakeLocal (f : NegFlags) (s : MuTelnet) : MuTelnet :=
  if f.handshake_local > 0 then
    { s with handshakes_left :=
        { s.handshakes_left with local_ := setRemove s.handshakes_left.local_ f.handshake_local } }
  else s

/-- Stage of `receive_negotiate` phase two: `if handshake_remote > 0` drop
the completed remote handshake. -/
def negHandshakeRemote (f : NegFlags) (s : MuTelnet) : MuTelnet :=
  if f.handshake_remote > 0 then
    { s with handshakes_left :=
        { s.handshakes_left with remote := setRemove s.handshakes_left.remote f.handshake_remote } }
  else s

/-- Stage of `receive_negotiate` phase two: run the flagged enable/disable
hooks in source order, each executed hook overwriting `changed`. -/
def negHooks (op : Nat) (f : NegFlags) (s : MuTelnet) : MuTelnet × Bool :=
  let r := if f.enable_local then s.enable_local op else (s, false)
  let r := if f.disable_local then r.1.disable_local op else r
  let r := if f.enable_remote then r.1.enable_remote op else r
  let r := if f.disable_remote then r.1.disable_remote op else r
  r

/-- Second phase of `MuTelnet::receive_negotiate`: write back the option
state, emit the pending reply, drop completed handshakes, and run the
enable/disable hooks. -/
def applyFlags (s : MuTelnet) (op : Nat) (f : NegFlags) : MuTelnet × Bool :=
  negHooks op f (negHandshakeRemote f (negHandshakeLocal f (negRespond op f (negWriteBack op f s))))

/-- Rust `MuTelnet::receive_negotiate`. -/
def MuTelnet.receive_negotiate (s : MuTelnet) (command op : Nat) : MuTelnet × Bool :=
  applyFlags s op (computeFlags (assocFind s.op_state op) command op)

/-- Big-endian 16-bit read of two payload bytes; models `Bytes::get_u16`. -/
def u16be (b0 b1 : Nat) : Nat :=
  (b0 % 256) * 256 + (b1 % 256)

/-- Rust `MuTelnet::receive_naws`: a payload of at least 4 bytes carries
width then height as big-endian 16-bit integers; anything shorter is
ignored.  Reports whether either dimension changed. -/
def MuTelnet.receive_naws (s : MuTelnet) (data : List Nat) : MuTelnet × Bool :=
  match data with
  | b0 :: b1 :: b2 :: b3 :: _ =>
    let old_width := s.config.width
    let old_height := s.config.height
    let s := { s with config :=
      { s.config with width := u16be b0 b1, height := u16be b2 b3 } }
    (s, !(decide (old_width = s.config.width) && decide (old_height = s.config.height)))
  | _ => (s, false)

/-- Strict UTF-8 decoding of a byte list; models `String::from_utf8`
(`none` = `Err`): continuation bytes must be `80..=BF`, with the usual
tightened second-byte ranges that exclude overlong forms, surrogates and
code points above `10FFFF`. -/
def utf8Decode : List Nat → Option (List Char)
  | [] => some []
  | b0 :: rest =>
    if b0 < 128 then
      match utf8Decode rest with
      | some cs => some (Char.ofNat b0 :: cs)
      | none => none
    else if 194 ≤ b0 ∧ b0 ≤ 223 then
      match rest with
      | b1 :: rest2 =>
        if 128 ≤ b1 ∧ b1 ≤ 191 then
          match utf8Decode rest2 with
          | some cs => some (Char.ofNat ((b0 - 192) * 64 + (b1 - 128)) :: cs)
          | none => none
        else none
      | [] => none
    else if 224 ≤ b0 ∧ b0 ≤ 239 then
      match rest with
      | b1 :: b2 :: rest3 =>
        let lo1 := if b0 = 224 then 160 else 128
        let hi1 := if b0 = 237 then 159 else 191
        if lo1 ≤ b1 ∧ b1 ≤ hi1 ∧ 128 ≤ b2 ∧ b2 ≤ 191 then
          match utf8Decode rest3 with
          | some cs =>
            some (Char.ofNat ((b0 - 224) * 4096 + (b1 - 128) * 64 + (b2 - 128)) :: cs)
          | none => none
        else none
      | _ => none
    else if 240 ≤ b0 ∧ b0 ≤ 244 then
      match rest with
      | b1 :: b2 :: b3 :: rest4 =>
        let lo1 := if b0 = 240 then 144 else 128
        let hi1 := if b0 = 244 then 143 else 191
        if lo1 ≤ b1 ∧ b1 ≤ hi1 ∧ 128 ≤ b2 ∧ b2 ≤ 191 ∧ 128 ≤ b3 ∧ b3 ≤ 191 then
          match utf8Decode rest4 with
          | some cs =>
            some (Char.ofNat
              ((b0 - 240) * 262144 + (b1 - 128) * 4096 + (b2 - 128) * 64 + (b3 - 128)) :: cs)
          | none => none
        else none
      | _ => none
    else none

/-- Rust `str::trim` (whitespace stripped from both ends). -/
def trimList (s : List Char) : List Char :=
  ((s.dropWhile Char.isWhitespace).reverse.dropWhile Char.isWhitespace).reverse

/-- Rust `str::to_uppercase`, restricted to the per-character mapping (the
strings this engine compares are ASCII). -/
def toUpperList (s : List Char) : List Char :=
  s.map Char.toUpper

/-- Names on the `receive_ttype_0` allow-list of well-known clients. -/
def isKnownClient (name : List Char) : Bool :=
  name = "ATLANTIS".data || name = "CMUD".data || name = "KILDCLIENT".data ||
  name = "MUDLET".data || name = "MUSHCLIENT".data || name = "PUTTY".data ||
  name = "BEIP".data || name = "POTATO".data || name = "TINYFUGUE".data

/-- Rust `MuTelnet::receive_ttype_0` acting on the config.  The source runs
`data.splitn(1, " ")`, which yields a single piece (the whole string), and
then indexes `results[1]`: when `data` contains a space that index is out of
bounds and the thread panics, modelled as `none`. -/
def receive_ttype_0 (config : TelnetConfig) (data : List Char) : Option TelnetConfig :=
  if data.contains ' ' then
    none
  else
    let config := { config with client_name := data }
    let (config, extra_check) :=
      if isKnownClient config.client_name then
        (if config.color < 2 then { config with color := 2 } else config, false)
      else (config, true)
    let config :=
      if extra_check then
        if List.isPrefixOf "XTERM".data config.client_name ||
           List.isSuffixOf "-256COLOR".data config.client_name then
          if config.color < 2 then { config with color := 2 } else config
        else config
      else config
    some config

/-- Rust `MuTelnet::receive_ttype_1`. -/
def MuTelnet.receive_ttype_1 (s : MuTelnet) (data : List Char) : MuTelnet :=
  let s :=
    if List.isPrefixOf "XTERM".data data || List.isSuffixOf "-256COLOR".data data then
      if s.config.color < 2 then { s with config := { s.config with color := 2 } } else s
    else s
  { s with handshakes_left :=
      { s.handshakes_left with ttype := setRemove s.handshakes_left.ttype 1 } }

/-- Rust `usize::from_str` as used through `str::parse::<usize>()`: an
optional leading plus sign, then at least one decimal digit, rejecting
values that overflow a 64-bit word. -/
def parseUsize (s : List Char) : Option Nat :=
  let digits := match s with
    | '+' :: rest => rest
    | _ => s
  if digits = [] then none
  else if digits.all Char.isDigit then
    let v := digits.foldl (fun acc c => acc * 10 + (c.toNat - 48)) 0
    if v < 18446744073709551616 then some v else none
  else none

/-- Capability effect of a non-zero MTTS bitmask on the config, bit tests in
source order: bit 1 raises `color` to at least 1, bit 4 switches the
encoding to utf8, bit 8 raises `color` to at least 2, bit 64 flags a screen
reader; the remaining bits are accepted but unused. -/
def mttsApply (config : TelnetConfig) (mtts : Nat) : TelnetConfig :=
  let config := if 1 &&& mtts = 1 then
      (if config.color < 1 then { config with color := 1 } else config)
    else config
  let config := if 4 &&& mtts = 4 then { config with encoding := "utf8".data } else config
  let config := if 8 &&& mtts = 8 then
      (if config.color < 2 then { config with color := 2 } else config)
    else config
  if 64 &&& mtts = 64 then { config with screen_reader := true } else config

/-- Rust `MuTelnet::receive_ttype_2`: an `MTTS <n>` reply; each recognised
bit of the mask raises a capability.  A missing `MTTS ` marker or an
unparsable/zero mask returns early, skipping even the round-2 removal. -/
def MuTelnet.receive_ttype_2 (s : MuTelnet) (data : List Char) : MuTelnet :=
  if List.isPrefixOf "MTTS ".data data then
    let value := (data.dropWhile (fun c => c != ' ')).drop 1
    let mtts := (parseUsize value).getD 0
    if mtts = 0 then s
    else
      { s with config := mttsApply s.config mtts,
               handshakes_left :=
                 { s.handshakes_left with ttype := setRemove s.handshakes_left.ttype 2 } }
  else s

/-- Shared `1 | 2` arm of the `match self.ttype_count` in
`MuTelnet::receive_ttype`: a repeated string ends cycling; a new string is
fed to round 1 or round 2 processing. -/
def MuTelnet.receive_ttype_later (s : MuTelnet) (upper : List Char) : MuTelnet × Bool :=
  match s.ttype_last with
  | some last =>
    if last = upper then
      ({ s with handshakes_left := { s.handshakes_left with ttype := [] },
                ttype_last := none }, false)
    else
      match s.ttype_count with
      | 1 =>
        let s := s.receive_ttype_1 upper
        ({ s with ttype_last := some upper }, true)
      | 2 =>
        let s := s.receive_ttype_2 upper
        ({ s with ttype_last := none,
                  handshakes_left := { s.handshakes_left with ttype := [] } }, true)
      | _ => (s, false)
  | none => (s, false)

/-- Round-0 arm of the `match self.ttype_count` in `MuTelnet::receive_ttype`:
remember the reply, run `receive_ttype_0` (which may panic, hence `none`),
advance the round counter, drop round 0 from the pending set and queue the
second request. -/
def MuTelnet.receive_ttype_round0 (s : MuTelnet) (upper : List Char) :
    Option (MuTelnet × Bool) :=
  match receive_ttype_0 s.config upper with
  | none => none
  | some config =>
    some (({ s with ttype_last := some upper,
                    config := config,
                    ttype_count := (s.ttype_count + 1) % 256,
                    handshakes_left :=
                      { s.handshakes_left with
                        ttype := setRemove s.handshakes_left.ttype 0 } }).request_ttype, true)

/-- Rust `MuTelnet::receive_ttype`.  `none` models the `receive_ttype_0`
panic; every guard failure falls through to `false` with no state change. -/
def MuTelnet.receive_ttype (s : MuTelnet) (data : List Nat) : Option (MuTelnet × Bool) :=
  if data.length < 2 then some (s, false)
  else if s.handshakes_left.ttype.isEmpty then some (s, false)
  else
    match data with
    | [] => some (s, false)
    | b0 :: rest =>
      if b0 != 0 then some (s, false)
      else
        match utf8Decode rest with
        | none => some (s, false)
        | some chars =>
          let upper := toUpperList (trimList chars)
          match s.ttype_count with
          | 0 => s.receive_ttype_round0 upper
          | 1 => some (s.receive_ttype_later upper)
          | 2 => some (s.receive_ttype_later upper)
          | _ => some (s, false)

/-- Rust `MuTelnet::handle_sub`: route a sub-negotiation payload; options
without a tracked state are ignored. -/
def MuTelnet.handle_sub (s : MuTelnet) (op : Nat) (data : List Nat) :
    Option (MuTelnet × Bool) :=
  if containsKey s.op_state op = false then some (s, false)
  else if op = NAWS then some (s.receive_naws data)
  else if op = TTYPE then s.receive_ttype data
  else some (s, false)

/-- States of the engine reachable through its public API.  A `handle_sub`
step exists only when the call returns (a panicking call has no successor
state). -/
inductive Reachable : MuTelnet → Prop
  | new (opts : List (Nat × TelnetOption)) : Reachable (MuTelnet.new opts)
  | start {s : MuTelnet} : Reachable s → Reachable s.start
  | negotiate {s : MuTelnet} (command op : Nat) :
      Reachable s → Reachable (s.receive_negotiate command op).1
  | sub {s s' : MuTelnet} {b : Bool} (op : Nat) (data : List Nat) :
      Reachable s → s.handle_sub op data = some (s', b) → Reachable s'
  | text {s : MuTelnet} (t : List Char) : Reachable s → Reachable (s.send_text t)
  | line {s : MuTelnet} (t : List Char) : Reachable s → Reachable (s.send_line t)
  | prompt {s : MuTelnet} (t : List Char) : Reachable s → Reachable (s.send_prompt t)

/-- Overwriting the first matching entry with the value it already holds is
the identity. -/
theorem assocUpdate_self {α : Type} (l : List (Nat × α)) (k : Nat) (v : α)
    (h : assocFind l k = some v) : assocUpdate l k v = l := by
  induction l with
  | nil => rfl
  | cons p rest ih =>
    obtain ⟨k', v'⟩ := p
    by_cases hk : k' = k
    · subst hk
      simp [assocFind] at h
      simp [assocUpdate, h]
    · simp [assocFind, hk] at h
      simp [assocUpdate, hk, ih h]


/-- Key membership is invariant under `assocUpdate`. -/
theorem containsKey_assocUpdate {α : Type} (l : List (Nat × α)) (k k' : Nat) (v : α) :
    containsKey (assocUpdate l k v) k' = containsKey l k' := by
  induction l with
  | nil => rfl
  | cons p rest ih =>
    obtain ⟨k0, v0⟩ := p
    by_cases h0 : k0 = k
    · subst h0
      by_cases h1 : k0 = k'
      · subst h1; simp [assocUpdate, containsKey, assocFind]
      · simp [assocUpdate, containsKey, assocFind, h1]
    · by_cases h1 : k0 = k'
      · subst h1; simp [assocUpdate, containsKey, assocFind, h0]
      · simp [assocUpdate, containsKey, assocFind, h0, h1]
        exact ih

/-- A key present after `assocInsert` was present before or is the inserted
key. -/
theorem containsKey_assocInsert {α : Type} (l : List (Nat × α)) (k k' : Nat) (v : α)
    (h : containsKey (assocInsert l k v) k' = true) :
    containsKey l k' = true ∨ k' = k := by
  induction l with
  | nil =>
    simp [assocInsert, containsKey, assocFind] at h
    exact Or.inr h.symm
  | cons p rest ih =>
    obtain ⟨k0, v0⟩ := p
    by_cases h0 : k0 = k
    · subst h0
      by_cases h1 : k0 = k'
      · subst h1; left; simp [containsKey, assocFind]
      · simp [assocInsert, containsKey, assocFind, h1] at h ⊢
        exact Or.inl h
    · by_cases h1 : k0 = k'
      · subst h1; left; simp [containsKey, assocFind]
      · simp [assocInsert, containsKey, assocFind, h0, h1] at h ⊢
        exact ih h

/-- An entry whose key occurs in the list makes `containsKey` true. -/
theorem containsKey_of_mem {α : Type} (l : List (Nat × α)) (e : Nat × α)
    (hmem : e ∈ l) : containsKey l e.1 = true := by
  induction hmem with
  | head rest =>
    obtain ⟨k0, v0⟩ := e
    simp [containsKey, assocFind]
  | tail p hm ih =>
    obtain ⟨k1, v1⟩ := p
    by_cases h0 : k1 = e.1
    · simp [containsKey, assocFind, h0]
    · simpa [containsKey, assocFind, h0] using ih

/-- Removal never grows a set. -/
theorem setRemove_subset (l : List Nat) (x : Nat) : setRemove l x ⊆ l :=
  List.filter_subset' l

/-- The local-enable hook changes nothing and reports no change. -/
theorem enable_local_eq (s : MuTelnet) (op : Nat) : s.enable_local op = (s, false) := by
  unfold MuTelnet.enable_local
  split <;> rfl

/-- The local-disable hook changes nothing and reports no change. -/
theorem disable_local_eq (s : MuTelnet) (op : Nat) : s.disable_local op = (s, false) := by
  unfold MuTelnet.disable_local
  split <;> rfl

/-- Frame facts for the remote-enable hook: it can only append an outbound
event, and it reports no change. -/
theorem enable_remote_frame (s : MuTelnet) (op : Nat) :
    (s.enable_remote op).1.op_state = s.op_state ∧
    (s.enable_remote op).1.telnet_options = s.telnet_options ∧
    (s.enable_remote op).1.handshakes_left = s.handshakes_left ∧
    (s.enable_remote op).2 = false := by
  unfold MuTelnet.enable_remote MuTelnet.request_ttype
  split <;> exact ⟨rfl, rfl, rfl, rfl⟩

/-- Frame facts for the remote-disable hook: it leaves the option state, the
registry, the outbound queue and the local/remote handshake sets alone, and
only ever shrinks the terminal-type handshake set. -/
theorem disable_remote_frame (s : MuTelnet) (op : Nat) :
    (s.disable_remote op).1.op_state = s.op_state ∧
    (s.disable_remote op).1.telnet_options = s.telnet_options ∧
    (s.disable_remote op).1.send_events = s.send_events ∧
    (s.disable_remote op).1.handshakes_left.local_ = s.handshakes_left.local_ ∧
    (s.disable_remote op).1.handshakes_left.remote = s.handshakes_left.remote ∧
    (s.disable_remote op).1.handshakes_left.ttype ⊆ s.handshakes_left.ttype := by
  unfold MuTelnet.disable_remote
  split
  · exact ⟨rfl, rfl, rfl, rfl, rfl, List.Subset.refl _⟩
  split
  · exact ⟨rfl, rfl, rfl, rfl, rfl, List.nil_subset _⟩
  · exact ⟨rfl, rfl, rfl, rfl, rfl, List.Subset.refl _⟩

/-- Frame preorder used to tame the staged second phase of
`receive_negotiate`: the left state tracks the same option keys and
registry as the right and has at most its pending handshakes. -/
@[reducible] def FrameLE (a b : MuTelnet) : Prop :=
  (∀ k, containsKey a.op_state k = containsKey b.op_state k) ∧
  a.telnet_options = b.telnet_options ∧
  a.handshakes_left.local_ ⊆ b.handshakes_left.local_ ∧
  a.handshakes_left.remote ⊆ b.handshakes_left.remote ∧
  a.handshakes_left.ttype ⊆ b.handshakes_left.ttype

/-- Reflexivity of the frame preorder. -/
theorem frameLE_refl (a : MuTelnet) : FrameLE a a :=
  ⟨fun _ => rfl, rfl, List.Subset.refl _, List.Subset.refl _, List.Subset.refl _⟩

/-- Transitivity of the frame preorder. -/
theorem frameLE_trans {a b c : MuTelnet} (h1 : FrameLE a b) (h2 : FrameLE b c) :
    FrameLE a c :=
  ⟨fun k => (h1.1 k).trans (h2.1 k), h1.2.1.trans h2.2.1,
   List.Subset.trans h1.2.2.1 h2.2.2.1, List.Subset.trans h1.2.2.2.1 h2.2.2.2.1,
   List.Subset.trans h1.2.2.2.2 h2.2.2.2.2⟩

/-- The write-back stage respects the frame preorder. -/
theorem frameLE_negWriteBack (op : Nat) (f : NegFlags) (s : MuTelnet) :
    FrameLE (negWriteBack op f s) s := by
  unfold negWriteBack
  cases hf : f.state with
  | none => exact frameLE_refl s
  | some st =>
    exact ⟨fun k => containsKey_assocUpdate _ _ _ _, rfl,
           List.Subset.refl _, List.Subset.refl _, List.Subset.refl _⟩

/-- The reply stage respects the frame preorder. -/
theorem frameLE_negRespond (op : Nat) (f : NegFlags) (s : MuTelnet) :
    FrameLE (negRespond op f s) s := by
  unfold negRespond
  split
  · exact ⟨fun _ => rfl, rfl, List.Subset.refl _, List.Subset.refl _, List.Subset.refl _⟩
  · exact frameLE_refl s

/-- The local-handshake stage respects the frame preorder. -/
theorem frameLE_negHandshakeLocal (f : NegFlags) (s : MuTelnet) :
    FrameLE (negHandshakeLocal f s) s := by
  unfold negHandshakeLocal
  split
  · exact ⟨fun _ => rfl, rfl, setRemove_subset _ _, List.Subset.refl _, List.Subset.refl _⟩
  · exact frameLE_refl s

/-- The remote-handshake stage respects the frame preorder. -/
theorem frameLE_negHandshakeRemote (f : NegFlags) (s : MuTelnet) :
    FrameLE (negHandshakeRemote f s) s := by
  unfold negHandshakeRemote
  split
  · exact ⟨fun _ => rfl, rfl, List.Subset.refl _, setRemove_subset _ _, List.Subset.refl _⟩
  · exact frameLE_refl s

/-- The local-enable hook respects the frame preorder. -/
theorem frameLE_enable_local (s : MuTelnet) (op : Nat) : FrameLE (s.enable_local op).1 s := by
  rw [enable_local_eq]; exact frameLE_refl s

/-- The local-disable hook respects the frame preorder. -/
theorem frameLE_disable_local (s : MuTelnet) (op : Nat) : FrameLE (s.disable_local op).1 s := by
  rw [disable_local_eq]; exact frameLE_refl s

/-- The remote-enable hook respects the frame preorder. -/
theorem frameLE_enable_remote (s : MuTelnet) (op : Nat) : FrameLE (s.enable_remote op).1 s := by
  obtain ⟨h1, h2, h3, _⟩ := enable_remote_frame s op
  exact ⟨fun k => by rw [h1], h2,
    by rw [h3]; exact List.Subset.refl _,
    by rw [h3]; exact List.Subset.refl _,
    by rw [h3]; exact List.Subset.refl _⟩

/-- The remote-disable hook respects the frame preorder. -/
theorem frameLE_disable_remote (s : MuTelnet) (op : Nat) : FrameLE (s.disable_remote op).1 s := by
  obtain ⟨h1, h2, _, h4, h5, h6⟩ := disable_remote_frame s op
  exact ⟨fun k => by rw [h1], h2,
    by rw [h4]; exact List.Subset.refl _,
    by rw [h5]; exact List.Subset.refl _, h6⟩

/-- One guarded hook invocation preserves the frame preorder. -/
theorem frameLE_step {s : MuTelnet} (c : Bool) (g : MuTelnet → MuTelnet × Bool)
    (hg : ∀ t, FrameLE (g t).1 t) (r : MuTelnet × Bool) (hr : FrameLE r.1 s) :
    FrameLE (if c then g r.1 else r).1 s := by
  cases c
  · simpa using hr
  · simpa using frameLE_trans (hg r.1) hr

/-- The whole hook stage respects the frame preorder. -/
theorem frameLE_negHooks (op : Nat) (f : NegFlags) (s : MuTelnet) :
    FrameLE (negHooks op f s).1 s := by
  simp only [negHooks]
  refine frameLE_step f.disable_remote (fun t => t.disable_remote op)
    (fun t => frameLE_disable_remote t op) _ ?_
  refine frameLE_step f.enable_remote (fun t => t.enable_remote op)
    (fun t => frameLE_enable_remote t op) _ ?_
  refine frameLE_step f.disable_local (fun t => t.disable_local op)
    (fun t => frameLE_disable_local t op) _ ?_
  refine frameLE_step f.enable_local (fun t => t.enable_local op)
    (fun t => frameLE_enable_local t op) _ ?_
  exact frameLE_refl s

/-- Phase two of `receive_negotiate` respects the frame preorder. -/
theorem frameLE_applyFlags (s : MuTelnet) (op : Nat) (f : NegFlags) :
    FrameLE (applyFlags s op f).1 s := by
  unfold applyFlags
  exact frameLE_trans (frameLE_negHooks op f _)
    (frameLE_trans (frameLE_negHandshakeRemote f _)
      (frameLE_trans (frameLE_negHandshakeLocal f _)
        (frameLE_trans (frameLE_negRespond op f _)
          (frameLE_negWriteBack op f s))))

/-- `receive_negotiate` respects the frame preorder. -/
theorem frameLE_receive_negotiate (s : MuTelnet) (command op : Nat) :
    FrameLE (s.receive_negotiate command op).1 s :=
  frameLE_applyFlags s op _

/-- `receive_naws` only ever touches the capability record. -/
theorem receive_naws_frame (s : MuTelnet) (data : List Nat) :
    (s.receive_naws data).1.op_state = s.op_state ∧
    (s.receive_naws data).1.telnet_options = s.telnet_options ∧
    (s.receive_naws data).1.handshakes_left = s.handshakes_left ∧
    (s.receive_naws data).1.send_events = s.send_events := by
  unfold MuTelnet.receive_naws
  split <;> exact ⟨rfl, rfl, rfl, rfl⟩

/-- Frame preorder for the terminal-type reply path: tracked state and
registry untouched, local/remote handshakes untouched, terminal-type
handshakes at most shrunk. -/
@[reducible] def SubFrame (a b : MuTelnet) : Prop :=
  a.op_state = b.op_state ∧
  a.telnet_options = b.telnet_options ∧
  a.handshakes_left.local_ = b.handshakes_left.local_ ∧
  a.handshakes_left.remote = b.handshakes_left.remote ∧
  a.handshakes_left.ttype ⊆ b.handshakes_left.ttype

/-- Reflexivity of `SubFrame`. -/
theorem subFrame_refl (a : MuTelnet) : SubFrame a a :=
  ⟨rfl, rfl, rfl, rfl, List.Subset.refl _⟩

/-- Transitivity of `SubFrame`. -/
theorem subFrame_trans {a b c : MuTelnet} (h1 : SubFrame a b) (h2 : SubFrame b c) :
    SubFrame a c :=
  ⟨h1.1.trans h2.1, h1.2.1.trans h2.2.1, h1.2.2.1.trans h2.2.2.1,
   h1.2.2.2.1.trans h2.2.2.2.1, List.Subset.trans h1.2.2.2.2 h2.2.2.2.2⟩

/-- A `SubFrame` step is in particular a `FrameLE` step. -/
theorem subFrame_frameLE {a b : MuTelnet} (h : SubFrame a b) : FrameLE a b :=
  ⟨fun k => by rw [h.1], h.2.1,
   by rw [h.2.2.1]; exact List.Subset.refl _,
   by rw [h.2.2.2.1]; exact List.Subset.refl _, h.2.2.2.2⟩

/-- Round-1 processing shrinks only the terminal-type handshake set and the
color capability. -/
theorem receive_ttype_1_subFrame (s : MuTelnet) (d : List Char) :
    SubFrame (s.receive_ttype_1 d) s := by
  unfold MuTelnet.receive_ttype_1
  repeat' split
  all_goals exact ⟨rfl, rfl, rfl, rfl, setRemove_subset _ _⟩

/-- Round-2 processing shrinks only the terminal-type handshake set and the
capability record. -/
theorem receive_ttype_2_subFrame (s : MuTelnet) (d : List Char) :
    SubFrame (s.receive_ttype_2 d) s := by
  simp only [MuTelnet.receive_ttype_2]
  repeat' split
  all_goals first
    | exact subFrame_refl s
    | exact ⟨rfl, rfl, rfl, rfl, setRemove_subset _ _⟩

/-- The shared round-1/round-2 arm of `receive_ttype` respects `SubFrame`. -/
theorem receive_ttype_later_subFrame (s : MuTelnet) (upper : List Char) :
    SubFrame (s.receive_ttype_later upper).1 s := by
  unfold MuTelnet.receive_ttype_later
  cases hl : s.ttype_last with
  | none => exact subFrame_refl s
  | some last =>
    by_cases he : last = upper
    · simp only [he, if_pos rfl]
      exact ⟨rfl, rfl, rfl, rfl, List.nil_subset _⟩
    · simp only [if_neg he]
      cases hc : s.ttype_count with
      | zero => exact subFrame_refl s
      | succ n =>
        cases n with
        | zero =>
          have h1 := receive_ttype_1_subFrame s upper
          exact ⟨h1.1, h1.2.1, h1.2.2.1, h1.2.2.2.1, h1.2.2.2.2⟩
        | succ m =>
          cases m with
          | zero =>
            have h2 := receive_ttype_2_subFrame s upper
            exact ⟨h2.1, h2.2.1, h2.2.2.1, h2.2.2.2.1, List.nil_subset _⟩
          | succ p => exact subFrame_refl s

/-- A returning round-0 arm respects `SubFrame`. -/
theorem receive_ttype_round0_subFrame (s : MuTelnet) (upper : List Char)
    (s' : MuTelnet) (b : Bool) (h : s.receive_ttype_round0 upper = some (s', b)) :
    SubFrame s' s := by
  unfold MuTelnet.receive_ttype_round0 at h
  split at h
  · cases h
  · have hx := congrArg Prod.fst (Option.some.inj h)
    dsimp only at hx
    exact hx ▸ ⟨rfl, rfl, rfl, rfl, setRemove_subset _ _⟩

/-- Every returning `receive_ttype` call respects `SubFrame`. -/
theorem receive_ttype_subFrame (s : MuTelnet) (data : List Nat) (s' : MuTelnet) (b : Bool)
    (h : s.receive_ttype data = some (s', b)) : SubFrame s' s := by
  unfold MuTelnet.receive_ttype at h
  split at h
  · cases h; exact subFrame_refl s
  split at h
  · cases h; exact subFrame_refl s
  split at h
  · cases h; exact subFrame_refl s
  rename_i b0 rest
  split at h
  · cases h; exact subFrame_refl s
  split at h
  · cases h; exact subFrame_refl s
  rename_i chars heq
  split at h
  · -- ttype_count = 0: the round-0 branch
    exact receive_ttype_round0_subFrame _ _ _ _ h
  · -- ttype_count = 1
    have hx := congrArg Prod.fst (Option.some.inj h)
    dsimp only at hx
    exact hx ▸ receive_ttype_later_subFrame _ _
  · -- ttype_count = 2
    have hx := congrArg Prod.fst (Option.some.inj h)
    dsimp only at hx
    exact hx ▸ receive_ttype_later_subFrame _ _
  · -- ttype_count ≥ 3
    cases h; exact subFrame_refl s

/-- Every returning `handle_sub` call respects `SubFrame`. -/
theorem handle_sub_subFrame (s : MuTelnet) (op : Nat) (data : List Nat) (s' : MuTelnet)
    (b : Bool) (h : s.handle_sub op data = some (s', b)) : SubFrame s' s := by
  unfold MuTelnet.handle_sub at h
  split at h
  · cases h; exact subFrame_refl s
  split at h
  · have hx := congrArg Prod.fst (Option.some.inj h)
    dsimp only at hx
    obtain ⟨h1, h2, h3, _⟩ := receive_naws_frame s data
    exact hx ▸ ⟨h1, h2, by rw [h3], by rw [h3],
      by rw [h3]; exact List.Subset.refl _⟩
  split at h
  · exact receive_ttype_subFrame s data s' b h
  · cases h; exact subFrame_refl s

/-- `startHandshakes` never touches the terminal-type set. -/
theorem startHandshakes_ttype (op : Nat) (o : TelnetOption) (h : TelnetHandshakes) :
    (startHandshakes op o h).ttype = h.ttype := by
  unfold startHandshakes
  cases h1 : o.start_remote <;> cases h2 : o.start_local <;> simp [h1, h2]

/-- `startStep` never touches the terminal-type set. -/
theorem startStep_ttype (acc : MuTelnet) (e : Nat × TelnetOption) :
    (startStep acc e).handshakes_left.ttype = acc.handshakes_left.ttype :=
  startHandshakes_ttype e.1 e.2 acc.handshakes_left

/-- The `start` loop never touches the terminal-type set. -/
theorem foldl_startStep_ttype (l : List (Nat × TelnetOption)) (acc : MuTelnet) :
    (l.foldl startStep acc).handshakes_left.ttype = acc.handshakes_left.ttype := by
  induction l generalizing acc with
  | nil => rfl
  | cons e rest ih => rw [List.foldl_cons, ih, startStep_ttype]

/-- The `start` loop never touches the registry. -/
theorem foldl_startStep_telnet_options (l : List (Nat × TelnetOption)) (acc : MuTelnet) :
    (l.foldl startStep acc).telnet_options = acc.telnet_options := by
  induction l generalizing acc with
  | nil => rfl
  | cons e rest ih => rw [List.foldl_cons, ih]; rfl

/-- A key tracked after the `start` loop was tracked before or belongs to a
processed registry entry. -/
theorem foldl_startStep_containsKey (l : List (Nat × TelnetOption)) (acc : MuTelnet)
    (k : Nat) (h : containsKey (l.foldl startStep acc).op_state k = true) :
    containsKey acc.op_state k = true ∨ ∃ e ∈ l, e.1 = k := by
  induction l generalizing acc with
  | nil => exact Or.inl h
  | cons e rest ih =>
    rw [List.foldl_cons] at h
    rcases ih _ h with h' | ⟨e', he', hk'⟩
    · rcases containsKey_assocInsert _ _ _ _ h' with h'' | h''
      · exact Or.inl h''
      · exact Or.inr ⟨e, List.mem_cons_self e rest, h''.symm⟩
    · exact Or.inr ⟨e', List.mem_cons_of_mem e he', hk'⟩

/-- `pushAll` only appends outbound events. -/
theorem pushAll_frame (c : Nat) (ops : List Nat) (s : MuTelnet) :
    (pushAll c ops s).op_state = s.op_state ∧
    (pushAll c ops s).handshakes_left = s.handshakes_left ∧
    (pushAll c ops s).telnet_options = s.telnet_options := by
  induction ops generalizing s with
  | nil => exact ⟨rfl, rfl, rfl⟩
  | cons op rest ih =>
    simp only [pushAll, List.foldl_cons]
    exact ⟨(ih _).1, (ih _).2.1, (ih _).2.2⟩

/-- `start` never touches the terminal-type handshake set. -/
theorem start_ttype (s : MuTelnet) :
    s.start.handshakes_left.ttype = s.handshakes_left.ttype := by
  simp only [MuTelnet.start]
  rw [(pushAll_frame _ _ _).2.1, (pushAll_frame _ _ _).2.1, foldl_startStep_ttype]

/-- `start` never touches the registry. -/
theorem start_telnet_options (s : MuTelnet) :
    s.start.telnet_options = s.telnet_options := by
  simp only [MuTelnet.start]
  rw [(pushAll_frame _ _ _).2.2, (pushAll_frame _ _ _).2.2, foldl_startStep_telnet_options]

/-- A key tracked after `start` was tracked before or is a registry key. -/
theorem start_containsKey (s : MuTelnet) (k : Nat)
    (h : containsKey s.start.op_state k = true) :
    containsKey s.op_state k = true ∨ containsKey s.telnet_options k = true := by
  simp only [MuTelnet.start] at h
  rw [(pushAll_frame _ _ _).1, (pushAll_frame _ _ _).1] at h
  rcases foldl_startStep_containsKey _ _ _ h with h' | ⟨e, he, hk⟩
  · exact Or.inl h'
  · exact Or.inr (hk ▸ containsKey_of_mem _ _ he)

/-- No reachable engine state has pending terminal-type handshake rounds:
nothing in the public API ever inserts into the set. -/
theorem reachable_ttype_nil {s : MuTelnet} (h : Reachable s) :
    s.handshakes_left.ttype = [] := by
  induction h with
  | new opts => rfl
  | start h ih => rw [start_ttype]; exact ih
  | negotiate command op h ih =>
    rename_i s0
    have hsub := (frameLE_receive_negotiate s0 command op).2.2.2.2
    rw [ih] at hsub
    exact List.subset_nil.mp hsub
  | sub op data h hstep ih =>
    have hsub := (handle_sub_subFrame _ _ _ _ _ hstep).2.2.2.2
    rw [ih] at hsub
    exact List.subset_nil.mp hsub
  | text t h ih => exact ih
  | line t h ih => exact ih
  | prompt t h ih => exact ih

/-- Every reachable state tracks only option codes present in the registry. -/
theorem reachable_keys {s : MuTelnet} (h : Reachable s) :
    ∀ k, containsKey s.op_state k = true → containsKey s.telnet_options k = true := by
  induction h with
  | new opts =>
    intro k hk
    simp [MuTelnet.new, containsKey, assocFind] at hk
  | start h ih =>
    intro k hk
    rw [start_telnet_options]
    rcases start_containsKey _ _ hk with h' | h'
    · exact ih k h'
    · exact h'
  | negotiate command op h ih =>
    rename_i s0
    intro k hk
    have h1 := (frameLE_receive_negotiate s0 command op).1 k
    rw [(frameLE_receive_negotiate s0 command op).2.1]
    exact ih k (h1 ▸ hk)
  | sub op data h hstep ih =>
    intro k hk
    have hf := handle_sub_subFrame _ _ _ _ _ hstep
    rw [hf.2.1]
    exact ih k (hf.1 ▸ hk)
  | text t h ih => exact ih
  | line t h ih => exact ih
  | prompt t h ih => exact ih

/-- With no pending terminal-type rounds, a terminal-type sub-negotiation is
a complete no-op reporting no change. -/
theorem handle_sub_ttype_of_nil (s : MuTelnet) (hnil : s.handshakes_left.ttype = [])
    (data : List Nat) : s.handle_sub TTYPE data = some (s, false) := by
  simp [MuTelnet.handle_sub, MuTelnet.receive_ttype, hnil, TTYPE, NAWS]

/-- Small demo registry for concrete witnesses: terminal-type and
window-size, both remote-allowed, window-size requested at start. -/
def demoRegistry : List (Nat × TelnetOption) :=
  [(TTYPE, { allow_local := false, allow_remote := true,
             start_local := false, start_remote := false }),
   (NAWS, { allow_local := false, allow_remote := true,
            start_local := false, start_remote := true })]

/-- Demo state: a fresh engine after `start` and a peer `WILL` for
terminal-type (so the first discovery request sits in the queue). -/
def demoState : MuTelnet :=
  ((MuTelnet.new demoRegistry).start.receive_negotiate WILL TTYPE).1

/-- The demo state is reachable through the public API. -/
theorem demoState_reachable : Reachable demoState :=
  Reachable.negotiate WILL TTYPE (Reachable.start (Reachable.new demoRegistry))

/-- Demo state with the window-size option remote-enabled as well. -/
def demoStateNaws : MuTelnet :=
  (demoState.receive_negotiate WILL NAWS).1

/-- The window-size demo state is reachable through the public API. -/
theorem demoStateNaws_reachable : Reachable demoStateNaws :=
  Reachable.negotiate WILL NAWS demoState_reachable

/-- C3: replaying `WILL` for a tracked option whose remote side is already
enabled returns `false`, queues no outbound event and leaves the engine
state entirely unchanged (the loop-avoidance rule). -/
theorem will_already_enabled_noop (s : MuTelnet) (op : Nat) (st : TelnetOptionState)
    (hfound : assocFind s.op_state op = some st) (hen : st.remote.enabled = true) :
    s.receive_negotiate WILL op = (s, false) := by
  simp [MuTelnet.receive_negotiate, computeFlags, applyFlags, NegFlags.none_,
    negWriteBack, negRespond, negHandshakeLocal, negHandshakeRemote, negHooks,
    hfound, hen, assocUpdate_self _ _ _ hfound]

/-- C3 witness: the demo state has terminal-type remote-enabled; replaying
`WILL(TTYPE)` is a no-op. -/
theorem will_already_enabled_noop_witness :
    demoState.receive_negotiate WILL TTYPE = (demoState, false) :=
  will_already_enabled_noop demoState TTYPE
    { remote := { enabled := true, negotiating := false },
      local_ := { enabled := false, negotiating := false } }
    (by decide) (by decide)

/-- C4: negotiation about an option code absent from the registry (and hence,
in any reachable state, untracked): `DO` is answered with exactly one `WONT`,
`WILL` with exactly one `DONT`, `WONT` and `DONT` with nothing; each call
returns `false` and changes nothing but the outbound queue. -/
theorem unknown_option_refusal (s : MuTelnet) (op : Nat) (h : Reachable s)
    (hreg : containsKey s.telnet_options op = false) :
    s.receive_negotiate DO op =
      ({ s with send_events := s.send_events ++ [TelnetEvent.Negotiate WONT op] }, false) ∧
    s.receive_negotiate WILL op =
      ({ s with send_events := s.send_events ++ [TelnetEvent.Negotiate DONT op] }, false) ∧
    s.receive_negotiate WONT op = (s, false) ∧
    s.receive_negotiate DONT op = (s, false) := by
  have hns : assocFind s.op_state op = none := by
    cases hfind : assocFind s.op_state op with
    | none => rfl
    | some st =>
      have hmem := reachable_keys h op (by simp [containsKey, hfind])
      rw [hreg] at hmem
      cases hmem
  refine ⟨?_, ?_, ?_, ?_⟩ <;>
    simp [MuTelnet.receive_negotiate, computeFlags, applyFlags, NegFlags.none_,
      negWriteBack, negRespond, negHandshakeLocal, negHandshakeRemote, negHooks,
      hns, WILL, WONT, DO, DONT]

/-- C4 witness: option 99 is not in the demo registry; the four commands
behave as claimed on the reachable demo state. -/
theorem unknown_option_refusal_witness :
    demoState.receive_negotiate DO 99 =
      ({ demoState with send_events :=
          demoState.send_events ++ [TelnetEvent.Negotiate WONT 99] }, false) ∧
    demoState.receive_negotiate WILL 99 =
      ({ demoState with send_events :=
          demoState.send_events ++ [TelnetEvent.Negotiate DONT 99] }, false) ∧
    demoState.receive_negotiate WONT 99 = (demoState, false) ∧
    demoState.receive_negotiate DONT 99 = (demoState, false) :=
  unknown_option_refusal demoState 99 demoState_reachable (by decide)

/-- C7: receiving `WONT` for the window-size option while its remote side is
enabled resets width and height to the defaults 78 and 24 and reports a
capability change, whatever the dimensions were before. -/
theorem naws_wont_resets_dimensions (s : MuTelnet) (st : TelnetOptionState)
    (hfound : assocFind s.op_state NAWS = some st) (hen : st.remote.enabled = true) :
    (s.receive_negotiate WONT NAWS).2 = true ∧
    (s.receive_negotiate WONT NAWS).1.config.width = 78 ∧
    (s.receive_negotiate WONT NAWS).1.config.height = 24 := by
  unfold MuTelnet.receive_negotiate
  rw [hfound]
  by_cases hneg : st.remote.negotiating = true <;>
    simp [computeFlags, applyFlags, NegFlags.none_,
      negWriteBack, negRespond, negHandshakeLocal, negHandshakeRemote, negHooks,
      MuTelnet.disable_remote, hen, hneg, WILL, WONT, DO, DONT, NAWS, TTYPE]

/-- C7 witness: after resizing to 80×50, a `WONT` for window-size restores
78×24 and reports the change. -/
theorem naws_wont_resets_dimensions_witness :
    (demoStateNaws.receive_negotiate WONT NAWS).2 = true ∧
    (demoStateNaws.receive_negotiate WONT NAWS).1.config.width = 78 ∧
    (demoStateNaws.receive_negotiate WONT NAWS).1.config.height = 24 :=
  naws_wont_resets_dimensions demoStateNaws
    { remote := { enabled := true, negotiating := false },
      local_ := { enabled := false, negotiating := false } }
    (by decide) (by decide)

/-- C2: in every engine state reachable through the public API the
terminal-type handshake set is empty — no operation ever inserts into it —
and consequently a terminal-type sub-negotiation always returns `false` and
leaves the whole engine state, in particular the capability record and the
outbound queue, unchanged, whatever the payload. -/
theorem ttype_discovery_never_runs (s : MuTelnet) (h : Reachable s) :
    s.handshakes_left.ttype = [] ∧
    ∀ data : List Nat, s.handle_sub TTYPE data = some (s, false) :=
  ⟨reachable_ttype_nil h,
   fun data => handle_sub_ttype_of_nil s (reachable_ttype_nil h) data⟩

/-- C2 witness: the reachable demo state (terminal-type remote-enabled, so a
discovery request was even queued) still has an empty terminal-type set, and
a well-formed reply is ignored. -/
theorem ttype_discovery_never_runs_witness :
    demoState.handshakes_left.ttype = [] ∧
    demoState.handle_sub TTYPE [0, 88, 84, 69, 82, 77] = some (demoState, false) := by
  have h := ttype_discovery_never_runs demoState demoState_reachable
  exact ⟨h.1, h.2 [0, 88, 84, 69, 82, 77]⟩

/-- C8: on every reachable state, `handle_sub` returns for every option and
payload — in particular the potentially-panicking round-0 terminal-type
parser (out-of-bounds `results[1]` after `splitn(1, " ")` on a
space-containing reply) is never reached, because the terminal-type pending
set is always empty.  The other public operations (`receive_negotiate` and
the send helpers) are total functions of the embedding by construction. -/
theorem public_api_never_panics (s : MuTelnet) (h : Reachable s) :
    ∀ (op : Nat) (data : List Nat), (s.handle_sub op data).isSome := by
  intro op data
  unfold MuTelnet.handle_sub
  split
  · rfl
  · split
    · rfl
    · split
      · have hnil := reachable_ttype_nil h
        simp [MuTelnet.receive_ttype, hnil]
      · rfl

/-- C8 witness: a space-containing terminal-type reply (the exact shape that
would crash `receive_ttype_0`) is absorbed without panic on the reachable
demo state. -/
theorem public_api_never_panics_witness :
    (demoState.handle_sub TTYPE [0, 77, 85, 68, 76, 69, 84, 32, 52]).isSome :=
  public_api_never_panics demoState demoState_reachable TTYPE
    [0, 77, 85, 68, 76, 69, 84, 32, 52]

/-- The window-size demo state after an 80 by 24 window-size report. -/
def demoStateNaws80 : MuTelnet :=
  { demoStateNaws with config :=
      { demoStateNaws.config with width := u16be 0 80, height := u16be 0 24 } }

/-- C6: for the tracked window-size option, a payload shorter than 4 bytes
causes no state change and returns `false`; a 4-byte payload stores the two
big-endian 16-bit integers, width then height, in the capability record and
returns `true` exactly when either value differs from the prior snapshot
(hence `[0,80,0,24]` sets 80×24 returning `true` and an identical replay
returns `false`, as the witness evaluates). -/
theorem naws_subnegotiation_spec (s : MuTelnet)
    (htrack : containsKey s.op_state NAWS = true) :
    (∀ data : List Nat, data.length < 4 → s.handle_sub NAWS data = some (s, false)) ∧
    (∀ b0 b1 b2 b3 : Nat, ∃ b : Bool,
      s.handle_sub NAWS [b0, b1, b2, b3] =
        some ({ s with config :=
          { s.config with width := u16be b0 b1, height := u16be b2 b3 } }, b) ∧
      (b = true ↔ ¬(s.config.width = u16be b0 b1 ∧ s.config.height = u16be b2 b3))) := by
  constructor
  · intro data hlen
    rcases data with _ | ⟨b0, data⟩
    · simp [MuTelnet.handle_sub, MuTelnet.receive_naws, htrack]
    rcases data with _ | ⟨b1, data⟩
    · simp [MuTelnet.handle_sub, MuTelnet.receive_naws, htrack]
    rcases data with _ | ⟨b2, data⟩
    · simp [MuTelnet.handle_sub, MuTelnet.receive_naws, htrack]
    rcases data with _ | ⟨b3, data⟩
    · simp [MuTelnet.handle_sub, MuTelnet.receive_naws, htrack]
    · exact absurd hlen (by simp)
  · intro b0 b1 b2 b3
    refine ⟨!(decide (s.config.width = u16be b0 b1) &&
              decide (s.config.height = u16be b2 b3)), ?_, ?_⟩
    · simp [MuTelnet.handle_sub, MuTelnet.receive_naws, htrack]
    · simp
      tauto

/-- C6 witness: on the reachable window-size demo state, a 2-byte payload is
ignored; `[0,80,0,24]` sets 80×24 and returns `true`; replaying the
identical payload on the updated state returns `false`. -/
theorem naws_subnegotiation_spec_witness :
    demoStateNaws.handle_sub NAWS [0, 80] = some (demoStateNaws, false) ∧
    demoStateNaws.handle_sub NAWS [0, 80, 0, 24] =
      some (demoStateNaws80, true) ∧
    demoStateNaws80.handle_sub NAWS [0, 80, 0, 24] = some (demoStateNaws80, false) := by
  refine ⟨(naws_subnegotiation_spec demoStateNaws (by decide)).1 [0, 80] (by decide), ?_, ?_⟩
  · obtain ⟨b, hb, hiff⟩ :=
      (naws_subnegotiation_spec demoStateNaws (by decide)).2 0 80 0 24
    have hbtrue : b = true := hiff.mpr (by decide)
    rw [hbtrue] at hb
    exact hb
  · obtain ⟨b, hb, hiff⟩ :=
      (naws_subnegotiation_spec demoStateNaws80 (by decide)).2 0 80 0 24
    have hbfalse : b = false := by
      cases hbv : b
      · rfl
      · exact absurd (hiff.mp hbv) (by decide)
    rw [hbfalse] at hb
    exact hb

/-- C10: the window-size length guard is "at least 4 bytes", not "exactly 4":
a longer payload is parsed from its first four bytes (width then height,
big-endian) with the trailing bytes ignored, returning whether either value
changed. -/
theorem naws_guard_accepts_longer (s : MuTelnet)
    (htrack : containsKey s.op_state NAWS = true)
    (b0 b1 b2 b3 : Nat) (rest : List Nat) : ∃ b : Bool,
    s.handle_sub NAWS (b0 :: b1 :: b2 :: b3 :: rest) =
      some ({ s with config :=
        { s.config with width := u16be b0 b1, height := u16be b2 b3 } }, b) ∧
    (b = true ↔ ¬(s.config.width = u16be b0 b1 ∧ s.config.height = u16be b2 b3)) := by
  refine ⟨!(decide (s.config.width = u16be b0 b1) &&
            decide (s.config.height = u16be b2 b3)), ?_, ?_⟩
  · simp [MuTelnet.handle_sub, MuTelnet.receive_naws, htrack]
  · simp
    tauto

/-- C10 witness: a 6-byte payload `[0,100,0,40,9,9]` is not ignored: it sets
width 100 and height 40 from its first four bytes and returns `true`. -/
theorem naws_guard_accepts_longer_witness :
    demoStateNaws.handle_sub NAWS [0, 100, 0, 40, 9, 9] =
      some ({ demoStateNaws with config :=
        { demoStateNaws.config with
            width := u16be 0 100, height := u16be 0 40 } }, true) := by
  obtain ⟨b, hb, hiff⟩ :=
    naws_guard_accepts_longer demoStateNaws (by decide) 0 100 0 40 [9, 9]
  have hbtrue : b = true := hiff.mpr (by decide)
  rw [hbtrue] at hb
  exact hb

/-- Replacement of a single-character pattern acts pointwise on the list. -/
theorem replaceList_single (c : Char) (rep : List Char) (s : List Char) :
    replaceList [c] rep s = s.flatMap (fun x => if x = c then rep else [x]) := by
  induction s with
  | nil => simp [replaceList]
  | cons x rest ih =>
    by_cases h : c = x
    · subst h
      simp [replaceList, List.isPrefixOf, ih]
    · simp [replaceList, List.isPrefixOf, h, Ne.symm h, ih]

/-- Dropping a character pointwise is a filter. -/
theorem flatMap_delete_eq_filter (c : Char) (s : List Char) :
    s.flatMap (fun x => if x = c then ([] : List Char) else [x]) =
      s.filter (fun x => x != c) := by
  induction s with
  | nil => rfl
  | cons x rest ih =>
    by_cases h : x = c <;> simp [h, ih]

/-- C9: `format_string` first removes every carriage return and then rewrites
every line feed to a carriage-return + line-feed pair (so "a\r\nb\nc\r"
normalizes to "a\r\nb\r\nc"); `send_line` emits the normalized text ending
in CRLF, appending one exactly when the normalized text does not already end
with CRLF, so inputs "x" and "x\r\n" both emit a Data payload "x\r\n". -/
theorem format_string_send_line_spec :
    (∀ s : List Char, format_string s =
      (s.filter (fun c => c != '\r')).flatMap
        (fun c => if c = '\n' then ['\r', '\n'] else [c])) ∧
    format_string "a\r\nb\nc\r".data = "a\r\nb\r\nc".data ∧
    (∀ (e : MuTelnet) (t : List Char), ∃ p : List Char,
      (e.send_line t).send_events = e.send_events ++ [TelnetEvent.Data p] ∧
      ['\r', '\n'] <:+ p ∧
      p = (if List.isSuffixOf ['\r', '\n'] (format_string t) then format_string t
           else format_string t ++ ['\r', '\n'])) ∧
    (∀ e : MuTelnet, (e.send_line "x".data).send_events =
      e.send_events ++ [TelnetEvent.Data "x\r\n".data]) ∧
    (∀ e : MuTelnet, (e.send_line "x\r\n".data).send_events =
      e.send_events ++ [TelnetEvent.Data "x\r\n".data]) := by
  have hfmt : ∀ s : List Char, format_string s =
      (s.filter (fun c => c != '\r')).flatMap
        (fun c => if c = '\n' then ['\r', '\n'] else [c]) := by
    intro s
    unfold format_string
    rw [replaceList_single, replaceList_single, flatMap_delete_eq_filter]
  refine ⟨hfmt, by rw [hfmt]; rfl, ?_, ?_, ?_⟩
  · intro e t
    unfold MuTelnet.send_line
    by_cases h : List.isSuffixOf ['\r', '\n'] (format_string t) = true
    · refine ⟨format_string t, by simp [h], List.isSuffixOf_iff_suffix.mp h, by simp [h]⟩
    · refine ⟨format_string t ++ ['\r', '\n'], by simp [h],
        List.suffix_append _ _, by simp [h]⟩
  · intro e
    unfold MuTelnet.send_line
    rw [hfmt]
    rfl
  · intro e
    unfold MuTelnet.send_line
    rw [hfmt]
    rfl

/-- Round-0 reply payload of the claimed scenario: marker 0 followed by the
ASCII bytes of "MUDLET 4.10". -/
def mudletPayload : List Nat := [0, 77, 85, 68, 76, 69, 84, 32, 52, 46, 49, 48]

/-- C1 evaluated on the code (a code bug): with terminal-type remote-enabled
and the first discovery request queued, the round-0 reply "MUDLET 4.10" is
dropped — `handle_sub` returns `false` and changes nothing, because no code
path ever inserts the pending rounds 0/1/2 into `handshakes_left.ttype`, so
`receive_ttype` bails out at its `is_empty` guard.  The claimed inference
can not happen even past that guard: `receive_ttype_0` on the space-carrying
string "MUDLET 4.10" panics (`splitn(1, " ")` yields a single piece, and the
source then indexes `results[1]`), as the last conjunct shows. -/
theorem ttype_round0_mudlet_dead :
    demoState.handle_sub TTYPE mudletPayload = some (demoState, false) ∧
    demoState.config.client_name = "UNKNOWN".data ∧
    demoState.config.client_version = "UNKNOWN".data ∧
    demoState.config.color = 0 ∧
    (TelnetEvent.SubNegotiate TTYPE [1]) ∈ demoState.send_events ∧
    receive_ttype_0 TelnetConfig.default ("MUDLET 4.10".data) = none := by
  refine ⟨by decide, by decide, by decide, by decide, by decide, by decide⟩

/-- C5: a single `receive_negotiate` call, and every returning `handle_sub`
call, leaves each of the three pending-handshake sets (local, remote,
terminal-type) a subset of its value before the call — the sets only ever
shrink under negotiation traffic — and in particular a set that is empty
before such a call is still empty after it; by induction this holds along
any sequence of such calls after `start`. -/
theorem handshake_sets_monotone (s : MuTelnet) (command op : Nat) (data : List Nat) :
    ((s.receive_negotiate command op).1.handshakes_left.local_
        ⊆ s.handshakes_left.local_ ∧
     (s.receive_negotiate command op).1.handshakes_left.remote
        ⊆ s.handshakes_left.remote ∧
     (s.receive_negotiate command op).1.handshakes_left.ttype
        ⊆ s.handshakes_left.ttype) ∧
    (∀ s' b, s.handle_sub op data = some (s', b) →
      s'.handshakes_left.local_ ⊆ s.handshakes_left.local_ ∧
      s'.handshakes_left.remote ⊆ s.handshakes_left.remote ∧
      s'.handshakes_left.ttype ⊆ s.handshakes_left.ttype) ∧
    (s.handshakes_left.local_ = [] →
      (s.receive_negotiate command op).1.handshakes_left.local_ = []) ∧
    (s.handshakes_left.remote = [] →
      (s.receive_negotiate command op).1.handshakes_left.remote = []) ∧
    (s.handshakes_left.ttype = [] →
      (s.receive_negotiate command op).1.handshakes_left.ttype = []) ∧
    (∀ s' b, s.handle_sub op data = some (s', b) →
      (s.handshakes_left.local_ = [] → s'.handshakes_left.local_ = []) ∧
      (s.handshakes_left.remote = [] → s'.handshakes_left.remote = []) ∧
      (s.handshakes_left.ttype = [] → s'.handshakes_left.ttype = [])) := by
  have hn := frameLE_receive_negotiate s command op
  refine ⟨⟨hn.2.2.1, hn.2.2.2.1, hn.2.2.2.2⟩, ?_, ?_, ?_, ?_, ?_⟩
  · intro s' b h
    have hf := handle_sub_subFrame s op data s' b h
    refine ⟨?_, ?_, hf.2.2.2.2⟩
    · rw [hf.2.2.1]; exact List.Subset.refl _
    · rw [hf.2.2.2.1]; exact List.Subset.refl _
  · intro hnil
    have hsub := hn.2.2.1
    rw [hnil] at hsub
    exact List.subset_nil.mp hsub
  · intro hnil
    have hsub := hn.2.2.2.1
    rw [hnil] at hsub
    exact List.subset_nil.mp hsub
  · intro hnil
    have hsub := hn.2.2.2.2
    rw [hnil] at hsub
    exact List.subset_nil.mp hsub
  · intro s' b h
    have hf := handle_sub_subFrame s op data s' b h
    refine ⟨fun hnil => hf.2.2.1.trans hnil, fun hnil => hf.2.2.2.1.trans hnil, ?_⟩
    intro hnil
    have hsub := hf.2.2.2.2
    rw [hnil] at hsub
    exact List.subset_nil.mp hsub

/-- C5 witness: concrete monotonicity facts at the demo state, for a `WONT`
on window-size and a short window-size sub-negotiation. -/
theorem handshake_sets_monotone_witness :
    ((demoState.receive_negotiate WONT NAWS).1.handshakes_left.local_
        ⊆ demoState.handshakes_left.local_) ∧
    ((demoState.receive_negotiate WONT NAWS).1.handshakes_left.ttype = []) ∧
    (demoState.handshakes_left.local_ ⊆ demoState.handshakes_left.local_ ∧
     demoState.handshakes_left.remote ⊆ demoState.handshakes_left.remote ∧
     demoState.handshakes_left.ttype ⊆ demoState.handshakes_left.ttype) := by
  have h := handshake_sets_monotone demoState WONT NAWS [0, 80]
  refine ⟨h.1.1, h.2.2.2.2.1 (by decide), ?_⟩
  exact h.2.1 demoState false (by decide)
